import Mathlib

/-!
Verification of the connection-setup core of viking/xgb (src/conn.go).

Bytes are modelled as `Nat` (values < 256 on real wires; 16-bit stores
truncate explicitly with `% 65536` via the two-byte split). Go strings are
modelled as `List Char` where the code manipulates text and as `List Nat`
where the code manipulates raw bytes. Fallible steps return `Except`/`Option`;
a Go slice-bounds panic is modelled as a distinct outcome constructor.
-/

namespace Xgb

/-- Modelled from the spec: the Byte Codec's 4-byte padding helper `pad` is
not under src/ (spec §2 lists it as an external primitive). The §4.4 layout
table (authName occupies offset 12 zero-padded up to a multiple of 4 and
authData starts at offset `12+pad(len(authName))`) together with the buffer
size `12+pad(n)+pad(d)` and the copy offsets of src/conn.go:41-50 determine
`pad(n)` = `n` rounded up to the next multiple of 4; the §4.4 sentence giving
values 0-3 describes the padding byte count `pad(n) - n`. -/
def pad (n : Nat) : Nat := ((n + 3) / 4) * 4

/-- Modelled from the spec: the byte-order helper `Put16` is not under src/
(spec §1: "the generic byte-order helpers" are external). The hello message
fixes the byte order with the little-endian marker 0x6c (§4.4), so a 16-bit
store is two bytes, low byte first; as a two-byte store it keeps only the
low 16 bits of its argument (the Go call sites cast to uint16). -/
def put16 (v : Nat) : List Nat := [v % 256, v / 256 % 256]

/-- Modelled from the spec: the byte-order helper `Get16` (little-endian,
see `put16`). Reads the first two bytes of the list, low byte first. -/
def get16 (bs : List Nat) : Nat := bs.getD 0 0 + 256 * bs.getD 1 0

/-- Go's `copy(buf[i:], src)`: overwrite `buf` from position `i` with as many
bytes of `src` as fit, leaving the rest of `buf` unchanged. -/
def copyInto (buf : List Nat) (i : Nat) (src : List Nat) : List Nat :=
  buf.take i ++ src.take (buf.length - i) ++ buf.drop (i + min src.length (buf.length - i))

/-- src/conn.go:41-50: build the client hello. A zero buffer of length
`12+pad(len(authName))+pad(len(authData))` is allocated and written
field by field exactly as in the source. -/
def encodeHello (authName authData : List Nat) : List Nat :=
  let buf0 := List.replicate (12 + pad authName.length + pad authData.length) 0
  let buf1 := copyInto buf0 0 [0x6c]
  let buf2 := copyInto buf1 1 [0]
  let buf3 := copyInto buf2 2 (put16 11)
  let buf4 := copyInto buf3 4 (put16 0)
  let buf5 := copyInto buf4 6 (put16 authName.length)
  let buf6 := copyInto buf5 8 (put16 authData.length)
  let buf7 := copyInto buf6 10 (put16 0)
  let buf8 := copyInto buf7 12 authName
  copyInto buf8 (12 + pad authName.length) authData

theorem pad_ge (n : Nat) : n ≤ pad n := by
  unfold pad; omega

theorem pad_le (n : Nat) : pad n ≤ n + 3 := by
  unfold pad; omega

/-- Writing `src` into the zero region of `done ++ 0^k` at offset
`done.length + j` splits the zeros around `src`. -/
theorem copyInto_zeros (done : List Nat) (k j : Nat) (src : List Nat)
    (h : j + src.length ≤ k) :
    copyInto (done ++ List.replicate k 0) (done.length + j) src
      = done ++ List.replicate j 0 ++ src ++ List.replicate (k - j - src.length) 0 := by
  unfold copyInto
  have hlen : (done ++ List.replicate k (0:Nat)).length = done.length + k := by
    simp
  have htake : (done ++ List.replicate k (0:Nat)).take (done.length + j)
      = done ++ List.replicate j 0 := by
    rw [List.take_append_eq_append_take]
    have h1 : done.take (done.length + j) = done := List.take_of_length_le (by omega)
    have h2 : done.length + j - done.length = j := by omega
    rw [h1, h2, List.take_replicate]
    have : min j k = j := by omega
    rw [this]
  have hsrc : src.take ((done ++ List.replicate k (0:Nat)).length - (done.length + j))
      = src := by
    rw [hlen]
    exact List.take_of_length_le (by omega)
  have hmin : min src.length ((done ++ List.replicate k (0:Nat)).length - (done.length + j))
      = src.length := by
    rw [hlen]; omega
  have hdrop : (done ++ List.replicate k (0:Nat)).drop (done.length + j + src.length)
      = List.replicate (k - j - src.length) 0 := by
    rw [List.drop_append_eq_append_drop]
    have h1 : done.drop (done.length + j + src.length) = [] :=
      List.drop_eq_nil_of_le (by omega)
    have h2 : done.length + j + src.length - done.length = j + src.length := by omega
    rw [h1, h2, List.drop_replicate, List.nil_append]
    congr 1
    omega
  rw [htake, hsrc, hmin, hdrop]

/-- Variant of `copyInto_zeros` with the offset given as an arbitrary
expression. -/
theorem copyInto_write (done : List Nat) (k j : Nat) (src : List Nat) (i : Nat)
    (h : j + src.length ≤ k) (hi : i = done.length + j) :
    copyInto (done ++ List.replicate k 0) i src
      = done ++ (List.replicate j 0 ++ (src ++ List.replicate (k - j - src.length) 0)) := by
  subst hi
  have := copyInto_zeros done k j src h
  simpa [List.append_assoc] using this

theorem put16_length (v : Nat) : (put16 v).length = 2 := rfl

/-- The hello buffer, as the concatenation the imperative writes produce. -/
theorem encodeHello_eq (authName authData : List Nat) :
    encodeHello authName authData =
      [0x6c, 0] ++ put16 11 ++ put16 0
        ++ put16 authName.length ++ put16 authData.length ++ put16 0
        ++ authName ++ List.replicate (pad authName.length - authName.length) 0
        ++ authData ++ List.replicate (pad authData.length - authData.length) 0 := by
  have hn := pad_ge authName.length
  have hd := pad_ge authData.length
  have e1 : copyInto (List.replicate (12 + pad authName.length + pad authData.length) 0)
      0 [0x6c]
      = 0x6c :: List.replicate (12 + pad authName.length + pad authData.length - 1) 0 := by
    have h := copyInto_write [] (12 + pad authName.length + pad authData.length) 0 [0x6c] 0
      (by simp; omega) rfl
    simpa using h
  have e2 : copyInto
      (0x6c :: List.replicate (12 + pad authName.length + pad authData.length - 1) 0) 1 [0]
      = 0x6c :: 0 :: List.replicate (12 + pad authName.length + pad authData.length - 1 - 1) 0 := by
    have h := copyInto_write [0x6c] (12 + pad authName.length + pad authData.length - 1) 0 [0] 1
      (by simp; omega) rfl
    simpa using h
  have e3 : copyInto
      (0x6c :: 0 :: List.replicate (12 + pad authName.length + pad authData.length - 1 - 1) 0)
      2 (put16 11)
      = 0x6c :: 0 :: (put16 11 ++
          List.replicate (12 + pad authName.length + pad authData.length - 1 - 1 - 2) 0) := by
    have h := copyInto_write [0x6c, 0]
      (12 + pad authName.length + pad authData.length - 1 - 1) 0 (put16 11) 2
      (by simp [put16_length]; omega) rfl
    simpa [put16_length] using h
  have e4 : copyInto
      (0x6c :: 0 :: (put16 11 ++
          List.replicate (12 + pad authName.length + pad authData.length - 1 - 1 - 2) 0))
      4 (put16 0)
      = 0x6c :: 0 :: (put16 11 ++ (put16 0 ++
          List.replicate (12 + pad authName.length + pad authData.length - 1 - 1 - 2 - 2) 0)) := by
    have h := copyInto_write ([0x6c, 0] ++ put16 11)
      (12 + pad authName.length + pad authData.length - 1 - 1 - 2) 0 (put16 0) 4
      (by simp [put16_length]; omega) (by simp [put16_length])
    simpa [put16_length, List.append_assoc] using h
  have e5 : copyInto
      (0x6c :: 0 :: (put16 11 ++ (put16 0 ++
          List.replicate (12 + pad authName.length + pad authData.length - 1 - 1 - 2 - 2) 0)))
      6 (put16 authName.length)
      = 0x6c :: 0 :: (put16 11 ++ (put16 0 ++ (put16 authName.length ++
          List.replicate (12 + pad authName.length + pad authData.length
            - 1 - 1 - 2 - 2 - 2) 0))) := by
    have h := copyInto_write ([0x6c, 0] ++ put16 11 ++ put16 0)
      (12 + pad authName.length + pad authData.length - 1 - 1 - 2 - 2) 0
      (put16 authName.length) 6
      (by simp [put16_length]; omega) (by simp [put16_length])
    simpa [put16_length, List.append_assoc] using h
  have e6 : copyInto
      (0x6c :: 0 :: (put16 11 ++ (put16 0 ++ (put16 authName.length ++
          List.replicate (12 + pad authName.length + pad authData.length
            - 1 - 1 - 2 - 2 - 2) 0))))
      8 (put16 authData.length)
      = 0x6c :: 0 :: (put16 11 ++ (put16 0 ++ (put16 authName.length ++
          (put16 authData.length ++
          List.replicate (12 + pad authName.length + pad authData.length
            - 1 - 1 - 2 - 2 - 2 - 2) 0)))) := by
    have h := copyInto_write ([0x6c, 0] ++ put16 11 ++ put16 0 ++ put16 authName.length)
      (12 + pad authName.length + pad authData.length - 1 - 1 - 2 - 2 - 2) 0
      (put16 authData.length) 8
      (by simp [put16_length]; omega) (by simp [put16_length])
    simpa [put16_length, List.append_assoc] using h
  have e7 : copyInto
      (0x6c :: 0 :: (put16 11 ++ (put16 0 ++ (put16 authName.length ++
          (put16 authData.length ++
          List.replicate (12 + pad authName.length + pad authData.length
            - 1 - 1 - 2 - 2 - 2 - 2) 0)))))
      10 (put16 0)
      = 0x6c :: 0 :: (put16 11 ++ (put16 0 ++ (put16 authName.length ++
          (put16 authData.length ++ (put16 0 ++
          List.replicate (12 + pad authName.length + pad authData.length
            - 1 - 1 - 2 - 2 - 2 - 2 - 2) 0))))) := by
    have h := copyInto_write
      ([0x6c, 0] ++ put16 11 ++ put16 0 ++ put16 authName.length ++ put16 authData.length)
      (12 + pad authName.length + pad authData.length - 1 - 1 - 2 - 2 - 2 - 2) 0
      (put16 0) 10
      (by simp [put16_length]; omega) (by simp [put16_length])
    simpa [put16_length, List.append_assoc] using h
  have e8 : copyInto
      (0x6c :: 0 :: (put16 11 ++ (put16 0 ++ (put16 authName.length ++
          (put16 authData.length ++ (put16 0 ++
          List.replicate (12 + pad authName.length + pad authData.length
            - 1 - 1 - 2 - 2 - 2 - 2 - 2) 0))))))
      12 authName
      = 0x6c :: 0 :: (put16 11 ++ (put16 0 ++ (put16 authName.length ++
          (put16 authData.length ++ (put16 0 ++ (authName ++
          List.replicate (12 + pad authName.length + pad authData.length
            - 1 - 1 - 2 - 2 - 2 - 2 - 2 - authName.length) 0)))))) := by
    have h := copyInto_write
      ([0x6c, 0] ++ put16 11 ++ put16 0 ++ put16 authName.length ++ put16 authData.length
        ++ put16 0)
      (12 + pad authName.length + pad authData.length - 1 - 1 - 2 - 2 - 2 - 2 - 2) 0
      authName 12
      (by simp [put16_length]; omega) (by simp [put16_length])
    simpa [put16_length, List.append_assoc] using h
  have e9 : copyInto
      (0x6c :: 0 :: (put16 11 ++ (put16 0 ++ (put16 authName.length ++
          (put16 authData.length ++ (put16 0 ++ (authName ++
          List.replicate (12 + pad authName.length + pad authData.length
            - 1 - 1 - 2 - 2 - 2 - 2 - 2 - authName.length) 0)))))))
      (12 + pad authName.length) authData
      = 0x6c :: 0 :: (put16 11 ++ (put16 0 ++ (put16 authName.length ++
          (put16 authData.length ++ (put16 0 ++ (authName ++
          (List.replicate (pad authName.length - authName.length) 0 ++ (authData ++
          List.replicate (12 + pad authName.length + pad authData.length
            - 1 - 1 - 2 - 2 - 2 - 2 - 2 - authName.length
            - (pad authName.length - authName.length) - authData.length) 0)))))))) := by
    have h := copyInto_write
      ([0x6c, 0] ++ put16 11 ++ put16 0 ++ put16 authName.length ++ put16 authData.length
        ++ put16 0 ++ authName)
      (12 + pad authName.length + pad authData.length
        - 1 - 1 - 2 - 2 - 2 - 2 - 2 - authName.length)
      (pad authName.length - authName.length)
      authData (12 + pad authName.length)
      (by omega)
      (by simp [put16_length]; omega)
    simpa [put16_length, List.append_assoc] using h
  have hfinal : 12 + pad authName.length + pad authData.length
      - 1 - 1 - 2 - 2 - 2 - 2 - 2 - authName.length
      - (pad authName.length - authName.length) - authData.length
      = pad authData.length - authData.length := by omega
  simp only [encodeHello]
  rw [e1, e2, e3, e4, e5, e6, e7, e8, e9, hfinal]
  simp only [List.append_assoc, List.cons_append, List.nil_append]

theorem get16_put16 (v : Nat) (rest : List Nat) :
    get16 (put16 v ++ rest) = v % 65536 := by
  simp [get16, put16, List.getD]
  omega

theorem encodeHello_drop2 (authName authData : List Nat) :
    (encodeHello authName authData).drop 2
      = put16 11 ++ (put16 0 ++ (put16 authName.length ++ (put16 authData.length
        ++ (put16 0 ++ (authName
        ++ (List.replicate (pad authName.length - authName.length) 0
        ++ (authData
        ++ List.replicate (pad authData.length - authData.length) 0))))))) := by
  rw [show encodeHello authName authData
      = [0x6c, 0] ++ (put16 11 ++ (put16 0 ++ (put16 authName.length
        ++ (put16 authData.length ++ (put16 0 ++ (authName
        ++ (List.replicate (pad authName.length - authName.length) 0
        ++ (authData
        ++ List.replicate (pad authData.length - authData.length) 0)))))))) from by
    rw [encodeHello_eq]; simp [List.append_assoc]]
  exact List.drop_left' rfl

theorem encodeHello_drop4 (authName authData : List Nat) :
    (encodeHello authName authData).drop 4
      = put16 0 ++ (put16 authName.length ++ (put16 authData.length
        ++ (put16 0 ++ (authName
        ++ (List.replicate (pad authName.length - authName.length) 0
        ++ (authData
        ++ List.replicate (pad authData.length - authData.length) 0)))))) := by
  rw [show encodeHello authName authData
      = ([0x6c, 0] ++ put16 11) ++ (put16 0 ++ (put16 authName.length
        ++ (put16 authData.length ++ (put16 0 ++ (authName
        ++ (List.replicate (pad authName.length - authName.length) 0
        ++ (authData
        ++ List.replicate (pad authData.length - authData.length) 0))))))) from by
    rw [encodeHello_eq]; simp [List.append_assoc]]
  exact List.drop_left' rfl

theorem encodeHello_drop6 (authName authData : List Nat) :
    (encodeHello authName authData).drop 6
      = put16 authName.length ++ (put16 authData.length
        ++ (put16 0 ++ (authName
        ++ (List.replicate (pad authName.length - authName.length) 0
        ++ (authData
        ++ List.replicate (pad authData.length - authData.length) 0))))) := by
  rw [show encodeHello authName authData
      = ([0x6c, 0] ++ put16 11 ++ put16 0) ++ (put16 authName.length
        ++ (put16 authData.length ++ (put16 0 ++ (authName
        ++ (List.replicate (pad authName.length - authName.length) 0
        ++ (authData
        ++ List.replicate (pad authData.length - authData.length) 0)))))) from by
    rw [encodeHello_eq]; simp [List.append_assoc]]
  exact List.drop_left' rfl

theorem encodeHello_drop8 (authName authData : List Nat) :
    (encodeHello authName authData).drop 8
      = put16 authData.length
        ++ (put16 0 ++ (authName
        ++ (List.replicate (pad authName.length - authName.length) 0
        ++ (authData
        ++ List.replicate (pad authData.length - authData.length) 0)))) := by
  rw [show encodeHello authName authData
      = ([0x6c, 0] ++ put16 11 ++ put16 0 ++ put16 authName.length)
        ++ (put16 authData.length ++ (put16 0 ++ (authName
        ++ (List.replicate (pad authName.length - authName.length) 0
        ++ (authData
        ++ List.replicate (pad authData.length - authData.length) 0))))) from by
    rw [encodeHello_eq]; simp [List.append_assoc]]
  exact List.drop_left' rfl

theorem encodeHello_drop10 (authName authData : List Nat) :
    (encodeHello authName authData).drop 10
      = put16 0 ++ (authName
        ++ (List.replicate (pad authName.length - authName.length) 0
        ++ (authData
        ++ List.replicate (pad authData.length - authData.length) 0))) := by
  rw [show encodeHello authName authData
      = ([0x6c, 0] ++ put16 11 ++ put16 0 ++ put16 authName.length
          ++ put16 authData.length)
        ++ (put16 0 ++ (authName
        ++ (List.replicate (pad authName.length - authName.length) 0
        ++ (authData
        ++ List.replicate (pad authData.length - authData.length) 0)))) from by
    rw [encodeHello_eq]; simp [List.append_assoc]]
  exact List.drop_left' rfl

theorem encodeHello_drop12 (authName authData : List Nat) :
    (encodeHello authName authData).drop 12
      = authName
        ++ (List.replicate (pad authName.length - authName.length) 0
        ++ (authData
        ++ List.replicate (pad authData.length - authData.length) 0)) := by
  rw [show encodeHello authName authData
      = ([0x6c, 0] ++ put16 11 ++ put16 0 ++ put16 authName.length
          ++ put16 authData.length ++ put16 0)
        ++ (authName
        ++ (List.replicate (pad authName.length - authName.length) 0
        ++ (authData
        ++ List.replicate (pad authData.length - authData.length) 0))) from by
    rw [encodeHello_eq]; simp [List.append_assoc]]
  exact List.drop_left' rfl

theorem encodeHello_dropName (authName authData : List Nat) :
    (encodeHello authName authData).drop (12 + pad authName.length)
      = authData ++ List.replicate (pad authData.length - authData.length) 0 := by
  have hn := pad_ge authName.length
  rw [show encodeHello authName authData
      = ([0x6c, 0] ++ put16 11 ++ put16 0 ++ put16 authName.length
          ++ put16 authData.length ++ put16 0 ++ authName
          ++ List.replicate (pad authName.length - authName.length) 0)
        ++ (authData
        ++ List.replicate (pad authData.length - authData.length) 0) from by
    rw [encodeHello_eq]; simp [List.append_assoc]]
  exact List.drop_left' (by simp [put16_length]; omega)

theorem encodeHello_length (authName authData : List Nat) :
    (encodeHello authName authData).length
      = 12 + pad authName.length + pad authData.length := by
  have hn := pad_ge authName.length
  have hd := pad_ge authData.length
  rw [encodeHello_eq]
  simp [put16_length]
  omega

/-- The wire layout of the hello for a 16-byte credential, following the
claim's words (with the truncation of the two 16-bit length fields made
explicit): total length, the seven fixed header fields, the zero-padded
authName block at offset 12 and the authData block at offset
`12 + pad (len authName)`. -/
def helloLayout16 (authName authData : List Nat) : Prop :=
  (encodeHello authName authData).length
      = 12 + pad authName.length + pad 16 ∧
  (encodeHello authName authData).getD 0 0 = 0x6c ∧
  (encodeHello authName authData).getD 1 0 = 0 ∧
  get16 ((encodeHello authName authData).drop 2) = 11 ∧
  get16 ((encodeHello authName authData).drop 4) = 0 ∧
  get16 ((encodeHello authName authData).drop 6) = authName.length % 65536 ∧
  get16 ((encodeHello authName authData).drop 8) = authData.length ∧
  get16 ((encodeHello authName authData).drop 10) = 0 ∧
  ((encodeHello authName authData).drop 12).take (pad authName.length)
      = authName ++ List.replicate (pad authName.length - authName.length) 0 ∧
  (encodeHello authName authData).drop (12 + pad authName.length)
      = authData ++ List.replicate (pad 16 - 16) 0

/-- C1 (amended): the hello layout holds for every credential with a
16-byte cookie, except that the 16-bit length field at offset 6 carries
`len(authName) mod 2^16` (equal to `len(authName)` whenever it fits). -/
theorem encodeHello_layout (authName authData : List Nat)
    (hd : authData.length = 16) : helloLayout16 authName authData := by
  have hn := pad_ge authName.length
  refine ⟨?_, ?_, ?_, ?_, ?_, ?_, ?_, ?_, ?_, ?_⟩
  · rw [encodeHello_length, hd]
  · rw [encodeHello_eq]; simp [put16, List.getD]
  · rw [encodeHello_eq]; simp [put16, List.getD]
  · rw [encodeHello_drop2, get16_put16]
  · rw [encodeHello_drop4, get16_put16]
  · rw [encodeHello_drop6, get16_put16]
  · rw [encodeHello_drop8, get16_put16, hd]
  · rw [encodeHello_drop10, get16_put16]
  · rw [encodeHello_drop12]
    rw [List.take_append_eq_append_take]
    rw [List.take_of_length_le hn]
    rw [List.take_append_eq_append_take]
    rw [List.take_replicate]
    have h1 : min (pad authName.length - authName.length)
        (pad authName.length - authName.length) = pad authName.length - authName.length := by
      omega
    have h2 : pad authName.length - authName.length
        - (List.replicate (pad authName.length - authName.length) (0:Nat)).length = 0 := by
      simp
    rw [h1, h2]
    simp
  · rw [encodeHello_dropName, hd]

/-- C1 counterexample: for a 65536-byte authName the 16-bit field at
offset 6 reads 0, not `len(authName)` — the unamended claim fails. -/
theorem encodeHello_len_field_truncates :
    ¬ (get16 ((encodeHello (List.replicate 65536 0) (List.replicate 16 0)).drop 6)
        = (List.replicate (65536:Nat) (0:Nat)).length) := by
  rw [encodeHello_drop6, get16_put16, List.length_replicate]
  norm_num

/-- C1 witness: the amended layout theorem applied to a concrete
one-byte authName and a concrete 16-byte cookie. -/
theorem encodeHello_layout_witness :
    (List.replicate 16 (0:Nat)).length = 16 ∧
    helloLayout16 [77] (List.replicate 16 0) :=
  ⟨rfl, encodeHello_layout [77] (List.replicate 16 0) rfl⟩

/-- C2 (amended): the padding helper used by the encoder returns its
argument rounded up to a multiple of 4; the 0-3 bound and the alignment
property of the claim hold of the padding byte count `pad n - n`, and
`pad` is idempotent. -/
theorem pad_roundup_props (n : Nat) :
    n ≤ pad n ∧ pad n ≤ n + 3 ∧ pad n % 4 = 0 ∧ pad (pad n) = pad n ∧
    pad n - n ≤ 3 ∧ (n + (pad n - n)) % 4 = 0 := by
  unfold pad
  omega

/-- C2 counterexample: at n = 1 the helper returns 4, so the claimed
`0 ≤ pad n ≤ 3` and `(n + pad n) % 4 == 0` both fail (idempotence holds). -/
theorem pad_claim_false_at_one :
    ¬ (pad 1 ≤ 3 ∧ (1 + pad 1) % 4 = 0 ∧ pad (pad 1) = pad 1) := by
  decide

/-- Outcome of decoding the server's handshake response
(src/conn.go:55-82). `panicked` is the Go runtime panic raised by the
out-of-range slice `buf[8 : 8+reasonLen]`. -/
inductive DecodeResult where
  | transportFailed
  | versionMismatch (major minor : Nat)
  | refused (reason : List Nat)
  | panicked
  | accepted (buffer : List Nat)
  deriving DecidableEq

/-- src/conn.go:55-82: read the 8-byte header from the stream of bytes the
server sends; on a version match read `dataLen*4` further bytes into one
contiguous buffer; then branch on the status code. A stream shorter than a
blocking `io.ReadFull` demands is a transport failure. -/
def decodeResponse (stream : List Nat) : DecodeResult :=
  if stream.length < 8 then .transportFailed
  else
    let head := stream.take 8
    let code := head.getD 0 0
    let reasonLen := head.getD 1 0
    let major := get16 (head.drop 2)
    let minor := get16 (head.drop 4)
    let dataLen := get16 (head.drop 6)
    if major ≠ 11 ∨ minor ≠ 0 then .versionMismatch major minor
    else if (stream.drop 8).length < dataLen * 4 then .transportFailed
    else
      let buf := head ++ (stream.drop 8).take (dataLen * 4)
      if code = 0 then
        if 8 + reasonLen ≤ buf.length then .refused ((buf.drop 8).take reasonLen)
        else .panicked
      else .accepted buf

/-- Characterization of `decodeResponse` on a stream that splits into an
8-byte header, a body of exactly `dataLen*4` bytes, and arbitrary unread
rest. -/
theorem decodeResponse_split (head body rest : List Nat)
    (h8 : head.length = 8) (hb : body.length = get16 (head.drop 6) * 4) :
    decodeResponse (head ++ body ++ rest)
      = if get16 (head.drop 2) ≠ 11 ∨ get16 (head.drop 4) ≠ 0 then
          .versionMismatch (get16 (head.drop 2)) (get16 (head.drop 4))
        else if head.getD 0 0 = 0 then
          if 8 + head.getD 1 0 ≤ 8 + body.length then
            .refused (body.take (head.getD 1 0))
          else .panicked
        else .accepted (head ++ body) := by
  have hlen : (head ++ body ++ rest).length = 8 + body.length + rest.length := by
    simp [h8]; omega
  have htake : (head ++ body ++ rest).take 8 = head := by
    rw [List.append_assoc]
    exact List.take_left' h8
  have hdrop : (head ++ body ++ rest).drop 8 = body ++ rest := by
    rw [List.append_assoc]
    exact List.drop_left' h8
  have hbtake : (body ++ rest).take (get16 (head.drop 6) * 4) = body :=
    List.take_left' hb
  unfold decodeResponse
  rw [if_neg (by omega)]
  simp only [htake, hdrop]
  rw [hbtake]
  have hblen : (body ++ rest).length = body.length + rest.length := by simp
  by_cases hv : get16 (head.drop 2) ≠ 11 ∨ get16 (head.drop 4) ≠ 0
  · rw [if_pos hv, if_pos hv]
  · rw [if_neg hv, if_neg hv]
    rw [if_neg (by rw [hblen]; omega)]
    have hbuflen : (head ++ body).length = 8 + body.length := by simp [h8]
    by_cases hc : head.getD 0 0 = 0
    · rw [if_pos hc, if_pos hc, hbuflen]
      by_cases hr : 8 + head.getD 1 0 ≤ 8 + body.length
      · rw [if_pos hr, if_pos hr]
        have : (head ++ body).drop 8 = body := List.drop_left' h8
        rw [this]
      · rw [if_neg hr, if_neg hr]
    · rw [if_neg hc, if_neg hc]

/-- C3: branch order of the response decoder. A version mismatch is
reported from the header alone, whatever bytes follow; on a version match
exactly `dataLen*4` body bytes are consumed (the rest of the stream is
ignored), a zero status code refuses with exactly the first `reasonLen`
bytes of the body, and any non-zero status code is accepted with the full
`8 + dataLen*4`-byte buffer handed on. -/
theorem decodeResponse_branches (head body rest : List Nat)
    (h8 : head.length = 8) (hb : body.length = get16 (head.drop 6) * 4) :
    (¬ (get16 (head.drop 2) = 11 ∧ get16 (head.drop 4) = 0) →
      decodeResponse (head ++ body ++ rest)
        = .versionMismatch (get16 (head.drop 2)) (get16 (head.drop 4))) ∧
    (get16 (head.drop 2) = 11 → get16 (head.drop 4) = 0 →
      head.getD 0 0 = 0 → head.getD 1 0 ≤ body.length →
      decodeResponse (head ++ body ++ rest)
        = .refused (body.take (head.getD 1 0))) ∧
    (get16 (head.drop 2) = 11 → get16 (head.drop 4) = 0 →
      head.getD 0 0 ≠ 0 →
      decodeResponse (head ++ body ++ rest) = .accepted (head ++ body)) := by
  rw [decodeResponse_split head body rest h8 hb]
  refine ⟨?_, ?_, ?_⟩
  · intro hv
    rw [if_pos (by tauto)]
  · intro h11 h0 hc hr
    rw [if_neg (by simp [h11, h0]), if_pos hc, if_pos (by omega)]
  · intro h11 h0 hc
    rw [if_neg (by simp [h11, h0]), if_neg hc]

/-- C3 witness: a concrete refusal. Header `[0,3,11,0,0,0,1,0]` (status 0,
reason length 3, version 11.0, one 4-byte body unit), body `"no!"` plus a
pad byte: the decoder refuses with exactly the first three body bytes. -/
theorem decodeResponse_branches_witness :
    List.length [0, 3, 11, 0, 0, 0, 1, 0] = 8 ∧
    List.length [110, 111, 33, 0]
      = get16 (List.drop 6 [0, 3, 11, 0, 0, 0, 1, 0]) * 4 ∧
    decodeResponse ([0, 3, 11, 0, 0, 0, 1, 0] ++ [110, 111, 33, 0] ++ [9, 9])
      = .refused [110, 111, 33] :=
  ⟨rfl, by decide,
    (decodeResponse_branches [0, 3, 11, 0, 0, 0, 1, 0] [110, 111, 33, 0] [9, 9]
      rfl (by decide)).2.1 (by decide) (by decide) (by decide) (by decide)⟩

/-- C10: the refusal branch extracts the reason without a bounds check; it
is in range exactly when `reasonLen ≤ 4*dataLen`, and for every header
with status 0 and `reasonLen > 4*dataLen` the slice is out of range (a Go
panic). -/
theorem decodeResponse_reason_bounds (head body rest : List Nat)
    (h8 : head.length = 8) (hb : body.length = get16 (head.drop 6) * 4)
    (h11 : get16 (head.drop 2) = 11) (h0 : get16 (head.drop 4) = 0)
    (hc : head.getD 0 0 = 0) :
    (head.getD 1 0 ≤ get16 (head.drop 6) * 4 →
      decodeResponse (head ++ body ++ rest)
        = .refused (body.take (head.getD 1 0))) ∧
    (get16 (head.drop 6) * 4 < head.getD 1 0 →
      decodeResponse (head ++ body ++ rest) = .panicked) := by
  rw [decodeResponse_split head body rest h8 hb]
  rw [if_neg (by simp [h11, h0]), if_pos hc]
  constructor
  · intro hr
    rw [if_pos (by omega)]
  · intro hr
    rw [if_neg (by omega)]

/-- C10 witness: with status 0, reason length 9 but only one 4-byte body
unit, the decoder hits the out-of-range slice. -/
theorem decodeResponse_reason_bounds_witness :
    List.length [0, 9, 11, 0, 0, 0, 1, 0] = 8 ∧
    List.length [110, 111, 33, 0]
      = get16 (List.drop 6 [0, 9, 11, 0, 0, 0, 1, 0]) * 4 ∧
    get16 (List.drop 6 [0, 9, 11, 0, 0, 0, 1, 0]) * 4 < 9 ∧
    decodeResponse ([0, 9, 11, 0, 0, 0, 1, 0] ++ [110, 111, 33, 0] ++ [])
      = .panicked :=
  ⟨rfl, by decide, by decide,
    (decodeResponse_reason_bounds [0, 9, 11, 0, 0, 0, 1, 0] [110, 111, 33, 0] []
      rfl (by decide) (by decide) (by decide) (by decide)).2 (by decide)⟩

/-- The fields of the `Conn` record that the handshake reads or writes.
`dial` (src/conn.go:92-163) fills `host`, `display` and `defaultScreen`;
`connect` only ever writes `setup` (the parsed screen count stands in for
the structured setup, see `afterAuth`) and re-writes `defaultScreen` on
the success path. -/
structure ConnState where
  host : List Char
  display : List Char
  defaultScreen : Int
  setup : Option Nat
  deriving DecidableEq

/-- The terminal failures of `connect` after the transport is dialed
(src/conn.go:19-88); `panicked` is the Go panic of the refusal slice. -/
inductive XError where
  | unsupportedAuth (name : List Nat)
  | writeFailed
  | readFailed
  | versionMismatch (major minor : Nat)
  | refused (reason : List Nat)
  | panicked
  deriving DecidableEq

/-- Observable outcome of the post-dial part of `connect`: whether the
authority fallback warning was emitted on stderr, the hello bytes written
to the transport ([] when `connect` returns before writing), the receiver
record as `connect` leaves it, and the error returned (none on success). -/
structure ConnectResult where
  warned : Bool
  written : List Nat
  state : ConnState
  error : Option XError
  deriving DecidableEq

/-- The bytes of "MIT-MAGIC-COOKIE-1", the single supported auth
protocol name (src/conn.go:36-39). -/
def mitCookieName : List Nat := ("MIT-MAGIC-COOKIE-1").data.map Char.toNat

/-- src/conn.go:84-86: `if c.defaultScreen >= len(c.Setup.Roots)
{ c.defaultScreen = 0 }`. -/
def clampScreen (ds : Int) (roots : Nat) : Int :=
  if ds ≥ (roots : Int) then 0 else ds

/-- src/conn.go:41-88, after the credential is fixed: write the hello
(`writeOk` models whether `c.conn.Write` succeeds), decode the server's
response from `stream`, and on acceptance parse the setup and clamp the
default screen. `readSetup` stands for the external `ReadSetupInfo`
collaborator; all `connect` reads of the result is `len(c.Setup.Roots)`,
so it is modelled as the parsed screen count. -/
def afterAuth (readSetup : List Nat → Nat) (writeOk : Bool) (stream : List Nat)
    (s : ConnState) (warned : Bool) (authName authData : List Nat) : ConnectResult :=
  let written := encodeHello authName authData
  if writeOk then
    match decodeResponse stream with
    | .transportFailed => ⟨warned, written, s, some .readFailed⟩
    | .versionMismatch major minor =>
        ⟨warned, written, s, some (.versionMismatch major minor)⟩
    | .refused reason => ⟨warned, written, s, some (.refused reason)⟩
    | .panicked => ⟨warned, written, s, some .panicked⟩
    | .accepted buffer =>
        let n := readSetup buffer
        let s1 : ConnState := { s with setup := some n }
        let s2 : ConnState := { s1 with defaultScreen := clampScreen s1.defaultScreen n }
        ⟨warned, written, s2, none⟩
  else ⟨warned, written, s, some .writeFailed⟩

/-- src/conn.go:25-88: the whole post-dial part of `connect`. `auth` is
the outcome of the external `readAuthority` collaborator; on a lookup
failure the warning is printed and the empty credential is used with
`noauth = true`; with `noauth = false` a credential violating the shape
invariant aborts before anything is written. -/
def connectAfterDial (readSetup : List Nat → Nat)
    (auth : Except Unit (List Nat × List Nat)) (writeOk : Bool)
    (stream : List Nat) (s : ConnState) : ConnectResult :=
  match auth with
  | .error _ => afterAuth readSetup writeOk stream s true [] []
  | .ok (authName, authData) =>
      if authName ≠ mitCookieName ∨ authData.length ≠ 16 then
        ⟨false, [], s, some (.unsupportedAuth authName)⟩
      else afterAuth readSetup writeOk stream s false authName authData

theorem afterAuth_warned (readSetup : List Nat → Nat) (writeOk : Bool)
    (stream : List Nat) (s : ConnState) (warned : Bool)
    (authName authData : List Nat) :
    (afterAuth readSetup writeOk stream s warned authName authData).warned = warned := by
  unfold afterAuth
  by_cases hw : writeOk
  · rw [if_pos hw]
    cases decodeResponse stream <;> rfl
  · rw [if_neg hw]

theorem afterAuth_written (readSetup : List Nat → Nat) (writeOk : Bool)
    (stream : List Nat) (s : ConnState) (warned : Bool)
    (authName authData : List Nat) :
    (afterAuth readSetup writeOk stream s warned authName authData).written
      = encodeHello authName authData := by
  unfold afterAuth
  by_cases hw : writeOk
  · rw [if_pos hw]
    cases decodeResponse stream <;> rfl
  · rw [if_neg hw]

theorem afterAuth_error_ne_unsupported (readSetup : List Nat → Nat)
    (writeOk : Bool) (stream : List Nat) (s : ConnState) (warned : Bool)
    (authName authData nm : List Nat) :
    (afterAuth readSetup writeOk stream s warned authName authData).error
      ≠ some (XError.unsupportedAuth nm) := by
  unfold afterAuth
  by_cases hw : writeOk
  · rw [if_pos hw]
    cases decodeResponse stream <;> simp
  · rw [if_neg hw]
    simp

/-- C6: an authority-lookup failure never fails the handshake by itself —
it emits the warning, substitutes the empty unauthenticated credential,
and the handshake proceeds (the hello written is `encodeHello [] []`);
and the handshake fails with `unsupportedAuth name` iff the lookup
succeeded (`usingAuth = true`) with a credential violating the shape
invariant (name not "MIT-MAGIC-COOKIE-1" or data not 16 bytes). -/
theorem auth_fallback_and_unsupported (readSetup : List Nat → Nat)
    (writeOk : Bool) (stream : List Nat) (s : ConnState) :
    (connectAfterDial readSetup (Except.error ()) writeOk stream s
        = afterAuth readSetup writeOk stream s true [] [] ∧
      (connectAfterDial readSetup (Except.error ()) writeOk stream s).warned = true ∧
      (connectAfterDial readSetup (Except.error ()) writeOk stream s).written
        = encodeHello [] [] ∧
      ∀ nm, (connectAfterDial readSetup (Except.error ()) writeOk stream s).error
          ≠ some (XError.unsupportedAuth nm)) ∧
    (∀ (auth : Except Unit (List Nat × List Nat)) (nm : List Nat),
      (connectAfterDial readSetup auth writeOk stream s).error
          = some (XError.unsupportedAuth nm)
        ↔ ∃ d, auth = Except.ok (nm, d) ∧ (nm ≠ mitCookieName ∨ d.length ≠ 16)) := by
  refine ⟨⟨rfl, ?_, ?_, ?_⟩, ?_⟩
  · exact afterAuth_warned readSetup writeOk stream s true [] []
  · exact afterAuth_written readSetup writeOk stream s true [] []
  · intro nm
    exact afterAuth_error_ne_unsupported readSetup writeOk stream s true [] [] nm
  · intro auth nm
    match auth with
    | .error u =>
        simp only [connectAfterDial]
        constructor
        · intro h
          exact absurd h
            (afterAuth_error_ne_unsupported readSetup writeOk stream s true [] [] nm)
        · rintro ⟨d, hd, -⟩
          cases hd
    | .ok (authName, authData) =>
        simp only [connectAfterDial]
        by_cases hshape : authName ≠ mitCookieName ∨ authData.length ≠ 16
        · rw [if_pos hshape]
          constructor
          · intro h
            simp only [Option.some.injEq, XError.unsupportedAuth.injEq] at h
            exact ⟨authData, by rw [h], by rw [← h]; exact hshape⟩
          · rintro ⟨d, hd, hbad⟩
            cases hd
            rfl
        · rw [if_neg hshape]
          constructor
          · intro h
            exact absurd h
              (afterAuth_error_ne_unsupported readSetup writeOk stream s false
                authName authData nm)
          · rintro ⟨d, hd, hbad⟩
            cases hd
            exact absurd hbad hshape

/-- C9: every failing post-dial handshake returns the receiver exactly as
`dial` left it: no field is assigned by the failed attempt (in particular
`setup` is never written and the default screen is untouched) and no
`Connection` results (the result carries an error, not a success). -/
theorem connect_failure_state_unchanged (readSetup : List Nat → Nat)
    (auth : Except Unit (List Nat × List Nat)) (writeOk : Bool)
    (stream : List Nat) (s : ConnState) (e : XError)
    (h : (connectAfterDial readSetup auth writeOk stream s).error = some e) :
    (connectAfterDial readSetup auth writeOk stream s).state = s := by
  match auth with
  | .error u =>
      simp only [connectAfterDial] at h ⊢
      unfold afterAuth at h ⊢
      by_cases hw : writeOk
      · rw [if_pos hw] at h ⊢
        generalize hdec : decodeResponse stream = r at h ⊢
        cases r <;> simp_all
      · rw [if_neg hw]
  | .ok (authName, authData) =>
      simp only [connectAfterDial] at h ⊢
      by_cases hshape : authName ≠ mitCookieName ∨ authData.length ≠ 16
      · rw [if_pos hshape]
      · rw [if_neg hshape] at h ⊢
        unfold afterAuth at h ⊢
        by_cases hw : writeOk
        · rw [if_pos hw] at h ⊢
          generalize hdec : decodeResponse stream = r at h ⊢
          cases r <;> simp_all
        · rw [if_neg hw]

/-- C9 witness: a concrete failing run (bad credential shape) leaves the
concrete pre-state untouched. -/
theorem connect_failure_state_unchanged_witness :
    (connectAfterDial (fun _ => 1) (Except.ok ([1], [])) true []
        ⟨['h'], ['0'], 0, none⟩).error = some (XError.unsupportedAuth [1]) ∧
    (connectAfterDial (fun _ => 1) (Except.ok ([1], [])) true []
        ⟨['h'], ['0'], 0, none⟩).state = ⟨['h'], ['0'], 0, none⟩ :=
  ⟨by decide,
    connect_failure_state_unchanged (fun _ => 1) (Except.ok ([1], [])) true []
      ⟨['h'], ['0'], 0, none⟩ (XError.unsupportedAuth [1]) (by decide)⟩

/-- C7 (amended): a successful handshake stores the parsed screen count
and clamps the requested default screen to 0 exactly when it is greater
than or equal to that count; any smaller index — including a negative
one — is kept unchanged. -/
theorem connect_success_screen_clamp (readSetup : List Nat → Nat)
    (auth : Except Unit (List Nat × List Nat)) (writeOk : Bool)
    (stream : List Nat) (s : ConnState)
    (h : (connectAfterDial readSetup auth writeOk stream s).error = none) :
    ∃ n, (connectAfterDial readSetup auth writeOk stream s).state.setup = some n ∧
      (connectAfterDial readSetup auth writeOk stream s).state.defaultScreen
        = clampScreen s.defaultScreen n ∧
      ((n : Int) ≤ s.defaultScreen →
        (connectAfterDial readSetup auth writeOk stream s).state.defaultScreen = 0) ∧
      (s.defaultScreen < (n : Int) →
        (connectAfterDial readSetup auth writeOk stream s).state.defaultScreen
          = s.defaultScreen) := by
  have main : ∀ (warned : Bool) (authName authData : List Nat),
      (afterAuth readSetup writeOk stream s warned authName authData).error = none →
      ∃ n, (afterAuth readSetup writeOk stream s warned authName authData).state.setup
            = some n ∧
        (afterAuth readSetup writeOk stream s warned authName authData).state.defaultScreen
          = clampScreen s.defaultScreen n ∧
        ((n : Int) ≤ s.defaultScreen →
          (afterAuth readSetup writeOk stream s warned authName authData).state.defaultScreen
            = 0) ∧
        (s.defaultScreen < (n : Int) →
          (afterAuth readSetup writeOk stream s warned authName authData).state.defaultScreen
            = s.defaultScreen) := by
    intro warned authName authData he
    unfold afterAuth at he ⊢
    by_cases hw : writeOk
    · rw [if_pos hw] at he ⊢
      generalize hdec : decodeResponse stream = r at he ⊢
      cases r <;> simp at he
      rename_i buffer
      refine ⟨readSetup buffer, rfl, rfl, ?_, ?_⟩
      · intro hge
        show clampScreen s.defaultScreen (readSetup buffer) = 0
        unfold clampScreen
        rw [if_pos (by omega)]
      · intro hlt
        show clampScreen s.defaultScreen (readSetup buffer) = s.defaultScreen
        unfold clampScreen
        rw [if_neg (by omega)]
    · rw [if_neg hw] at he
      simp at he
  match auth with
  | .error u =>
      simp only [connectAfterDial] at h ⊢
      exact main true [] [] h
  | .ok (authName, authData) =>
      simp only [connectAfterDial] at h ⊢
      by_cases hshape : authName ≠ mitCookieName ∨ authData.length ≠ 16
      · rw [if_pos hshape] at h
        simp at h
      · rw [if_neg hshape] at h ⊢
        exact main false authName authData h

/-- C7 counterexample: display spec ":0.-1" requests default screen -1;
with one parsed screen the handshake succeeds and keeps -1 — it is not a
valid index yet is not replaced by 0, refuting the claim for
out-of-range-below indices. -/
theorem connect_negative_screen_kept :
    (connectAfterDial (fun _ => 1) (Except.error ()) true [1, 0, 11, 0, 0, 0, 0, 0]
        ⟨[], ['0'], -1, none⟩).error = none ∧
    (connectAfterDial (fun _ => 1) (Except.error ()) true [1, 0, 11, 0, 0, 0, 0, 0]
        ⟨[], ['0'], -1, none⟩).state.setup = some 1 ∧
    (connectAfterDial (fun _ => 1) (Except.error ()) true [1, 0, 11, 0, 0, 0, 0, 0]
        ⟨[], ['0'], -1, none⟩).state.defaultScreen = -1 := by
  refine ⟨by decide, by decide, by decide⟩

/-- C7 witness: a concrete successful run with requested screen 5 and one
parsed screen; the amended theorem yields the clamp to 0. -/
theorem connect_success_screen_clamp_witness :
    ∃ n, (connectAfterDial (fun _ => 1) (Except.error ()) true
            [1, 0, 11, 0, 0, 0, 0, 0] ⟨[], ['0'], 5, none⟩).state.setup = some n ∧
      (connectAfterDial (fun _ => 1) (Except.error ()) true
            [1, 0, 11, 0, 0, 0, 0, 0] ⟨[], ['0'], 5, none⟩).state.defaultScreen
        = clampScreen (ConnState.mk [] ['0'] 5 none).defaultScreen n ∧
      ((n : Int) ≤ (ConnState.mk [] ['0'] 5 none).defaultScreen →
        (connectAfterDial (fun _ => 1) (Except.error ()) true
            [1, 0, 11, 0, 0, 0, 0, 0] ⟨[], ['0'], 5, none⟩).state.defaultScreen = 0) ∧
      ((ConnState.mk [] ['0'] 5 none).defaultScreen < (n : Int) →
        (connectAfterDial (fun _ => 1) (Except.error ()) true
            [1, 0, 11, 0, 0, 0, 0, 0] ⟨[], ['0'], 5, none⟩).state.defaultScreen
          = (ConnState.mk [] ['0'] 5 none).defaultScreen) :=
  connect_success_screen_clamp (fun _ => 1) (Except.error ()) true
    [1, 0, 11, 0, 0, 0, 0, 0] ⟨[], ['0'], 5, none⟩ (by decide)

/-- Go's `strings.LastIndex(s, sep)` for a one-character separator:
the index of the last occurrence, `none` for Go's -1. (Display strings are
modelled as `List Char`; for the ASCII separators searched here Go's byte
indices and character indices coincide.) -/
def lastIdx : List Char → Char → Option Nat
  | [], _ => none
  | x :: xs, c =>
    match lastIdx xs c with
    | some i => some (i + 1)
    | none => if x = c then some 0 else none

theorem lastIdx_eq_none (l : List Char) (c : Char) :
    lastIdx l c = none ↔ c ∉ l := by
  induction l with
  | nil => simp [lastIdx]
  | cons x xs ih =>
    unfold lastIdx
    cases h : lastIdx xs c with
    | some i =>
        have hmem : c ∈ xs := by
          by_contra hc
          rw [← ih] at hc
          rw [h] at hc
          cases hc
        simp [hmem]
    | none =>
        have hnotin : c ∉ xs := ih.mp h
        show (if x = c then some 0 else none) = none ↔ c ∉ x :: xs
        by_cases hx : x = c
        · simp [hx]
        · rw [if_neg hx]
          constructor
          · intro _ hc
            rcases List.mem_cons.mp hc with h1 | h2
            · exact hx h1.symm
            · exact hnotin h2
          · intro _
            rfl

theorem lastIdx_append (xs ys : List Char) (c : Char) :
    lastIdx (xs ++ ys) c
      = match lastIdx ys c with
        | some j => some (xs.length + j)
        | none => lastIdx xs c := by
  induction xs with
  | nil =>
      cases h : lastIdx ys c <;> simp [lastIdx, h]
  | cons x xs ih =>
      have heq : lastIdx (x :: (xs ++ ys)) c
          = match lastIdx (xs ++ ys) c with
            | some i => some (i + 1)
            | none => if x = c then some 0 else none := rfl
      show lastIdx (x :: (xs ++ ys)) c = _
      rw [heq, ih]
      cases h : lastIdx ys c with
      | some j =>
          show some (xs.length + j + 1) = some (xs.length + 1 + j)
          rw [Nat.add_right_comm]
      | none =>
          rfl

theorem lastIdx_lt_length (l : List Char) (c : Char) (i : Nat)
    (h : lastIdx l c = some i) : i < l.length := by
  induction l generalizing i with
  | nil => cases h
  | cons x xs ih =>
      unfold lastIdx at h
      generalize hq : lastIdx xs c = r at h
      cases r with
      | some j =>
          simp only [Option.some.injEq] at h
          have := ih j hq
          simp only [List.length_cons]
          omega
      | none =>
          by_cases hx : x = c
          · have h' : (some 0 : Option Nat) = some i := by
              rw [← h]
              show some 0 = if x = c then some 0 else none
              rw [if_pos hx]
            simp only [Option.some.injEq] at h'
            simp only [List.length_cons]
            omega
          · have h' : (none : Option Nat) = some i := by
              rw [← h]
              show (none : Option Nat) = if x = c then some 0 else none
              rw [if_neg hx]
            cases h'

/-- Go's `strconv.Atoi` restricted to a digit run: `none` on an empty run
or any non-digit character, otherwise the decimal value. (The bit-width
range error of the original is not modelled; no claim concerns it.) -/
def digitsToNat? (s : List Char) : Option Nat :=
  if s.isEmpty then none
  else if s.all Char.isDigit then
    some (s.foldl (fun a c => a * 10 + (c.toNat - ('0').toNat)) 0)
  else none

/-- Go's `strconv.Atoi`: an optional single leading sign followed by a
non-empty digit run. -/
def parseInt? (s : List Char) : Option Int :=
  match s with
  | '+' :: rest => (digitsToNat? rest).map fun n => (n : Int)
  | '-' :: rest => (digitsToNat? rest).map fun n => -(n : Int)
  | _ => (digitsToNat? s).map fun n => (n : Int)

/-- The failures of `dial` (src/conn.go:92-163) up to transport opening.
`panicked` is the Go panic of the inverted slice
`display[slashIdx+1 : colonIdx]` when the last `/` lies after the last
`:`; `badDisplay` carries the original display string as the Go error
message does. -/
inductive DialError where
  | emptyDisplay
  | badDisplay (display0 : List Char)
  | panicked
  deriving DecidableEq

/-- What `dial` extracts from the display string: the three host-part
pieces, the display-number substring `c.display`, its parsed value, and
the default screen number (`c.defaultScreen`, 0 when absent — the fresh
`Conn` record's zero value). -/
structure DisplaySpec where
  protocol : List Char
  socket : List Char
  host : List Char
  display : List Char
  dispnum : Int
  screen : Int
  deriving DecidableEq

/-- src/conn.go:107-119: split the display string left of the last colon.
If the string starts with `/` everything before the colon is the socket
path; otherwise the last `/` of the WHOLE string (not just the host part)
splits protocol from host, and `display[slashIdx+1 : colonIdx]` panics
when that `/` lies at or after the colon. Returns
(protocol, socket, host). -/
def splitHostPart (display : List Char) (colonIdx : Nat) :
    Except DialError (List Char × List Char × List Char) :=
  if display.headD ' ' = '/' then Except.ok ([], display.take colonIdx, [])
  else
    match lastIdx display '/' with
    | some slashIdx =>
        if colonIdx < slashIdx + 1 then Except.error DialError.panicked
        else Except.ok (display.take slashIdx, [],
              (display.drop (slashIdx + 1)).take (colonIdx - (slashIdx + 1)))
    | none => Except.ok ([], [], display.take colonIdx)

/-- src/conn.go:92-145, the pure parsing part of `dial`. An empty
`displayArg` falls back to `envDisplay` (the DISPLAY environment
variable); then: last `:` required, host part split per `splitHostPart`,
non-empty display part split at its last `.` into display-number string
and screen string, display number a non-negative integer, screen number
any integer. -/
def parseDisplay (displayArg envDisplay : List Char) :
    Except DialError DisplaySpec :=
  let display := if displayArg.length = 0 then envDisplay else displayArg
  let display0 := display
  if display.length = 0 then Except.error DialError.emptyDisplay
  else
    match lastIdx display ':' with
    | none => Except.error (DialError.badDisplay display0)
    | some colonIdx =>
        match splitHostPart display colonIdx with
        | Except.error e => Except.error e
        | Except.ok (protocol, socket, host) =>
            let dpart := display.drop (colonIdx + 1)
            if dpart.length = 0 then Except.error (DialError.badDisplay display0)
            else
              let dstr : List Char :=
                match lastIdx dpart '.' with
                | none => dpart
                | some dotIdx => dpart.take dotIdx
              let scr : List Char :=
                match lastIdx dpart '.' with
                | none => []
                | some dotIdx => dpart.drop (dotIdx + 1)
              match parseInt? dstr with
              | none => Except.error (DialError.badDisplay display0)
              | some dispnum =>
                  if dispnum < 0 then Except.error (DialError.badDisplay display0)
                  else if scr.length ≠ 0 then
                    match parseInt? scr with
                    | none => Except.error (DialError.badDisplay display0)
                    | some sn =>
                        Except.ok ⟨protocol, socket, host, dstr, dispnum, sn⟩
                  else Except.ok ⟨protocol, socket, host, dstr, dispnum, 0⟩

deriving instance DecidableEq for Except

/-- Go's `strconv.Itoa`. -/
def itoa (i : Int) : List Char :=
  if i < 0 then '-' :: Nat.toDigits 10 (-i).toNat
  else Nat.toDigits 10 i.toNat

/-- src/conn.go:148-157: network name and address handed to `net.Dial`.
Socket path first (address `socket + ":" + c.display` — the raw
display-number substring); else a host connects over `protocol` (default
"tcp") to `host + ":" + strconv.Itoa(6000+dispnum)`; else the
conventional local socket `"/tmp/.X11-unix/X" + c.display`. -/
def dialTarget (spec : DisplaySpec) : List Char × List Char :=
  if spec.socket.length ≠ 0 then
    (("unix").data, spec.socket ++ ':' :: spec.display)
  else if spec.host.length ≠ 0 then
    ((if spec.protocol.length = 0 then ("tcp").data else spec.protocol),
      spec.host ++ ':' :: itoa (6000 + spec.dispnum))
  else
    (("unix").data, ("/tmp/.X11-unix/X").data ++ spec.display)

/-- C4: the display-spec parser on the reference table. Empty string with
no environment fallback, a colon-less string, and the five accepted
shapes, each mapped to exactly the stated spec (unstated fields empty or
zero). -/
theorem parseDisplay_table :
    parseDisplay [] [] = Except.error DialError.emptyDisplay ∧
    parseDisplay ("bogus").data []
      = Except.error (DialError.badDisplay ("bogus").data) ∧
    parseDisplay (":0").data [] = Except.ok ⟨[], [], [], ("0").data, 0, 0⟩ ∧
    parseDisplay (":1.2").data [] = Except.ok ⟨[], [], [], ("1").data, 1, 2⟩ ∧
    parseDisplay ("host:0").data []
      = Except.ok ⟨[], [], ("host").data, ("0").data, 0, 0⟩ ∧
    parseDisplay ("unix/host:0").data []
      = Except.ok ⟨("unix").data, [], ("host").data, ("0").data, 0, 0⟩ ∧
    parseDisplay ("/tmp/s:0").data []
      = Except.ok ⟨[], ("/tmp/s").data, [], ("0").data, 0, 0⟩ := by
  refine ⟨rfl, ?_, ?_, ?_, ?_, ?_, ?_⟩ <;> decide

/-- C5 (amended): when the display part after the last colon contains no
`/`, the split is as the claim states it — the last `/` (then necessarily
inside the host part) separates protocol from host, and with no `/` the
whole host part becomes the host. (A `/` after the last colon instead
inverts the slice bounds and aborts the parse; see the counterexample.)
The first conjunct identifies the split position: the colon index used is
the length of the host part. -/
theorem splitHostPart_last_slash (hp dp : List Char)
    (hcolon : ':' ∉ dp) (hslash : '/' ∉ dp) (hhead : hp.headD ' ' ≠ '/') :
    lastIdx (hp ++ ':' :: dp) ':' = some hp.length ∧
    splitHostPart (hp ++ ':' :: dp) hp.length
      = match lastIdx hp '/' with
        | some j => Except.ok (hp.take j, ([] : List Char), hp.drop (j + 1))
        | none => Except.ok (([] : List Char), ([] : List Char), hp) := by
  have hcnone : lastIdx dp ':' = none := (lastIdx_eq_none dp ':').mpr hcolon
  have hsnone : lastIdx dp '/' = none := (lastIdx_eq_none dp '/').mpr hslash
  have hcolonIdx : lastIdx (hp ++ ':' :: dp) ':' = some hp.length := by
    rw [lastIdx_append]
    have h1 : lastIdx (':' :: dp) ':' = some 0 := by
      show (match lastIdx dp ':' with
            | some i => some (i + 1)
            | none => if ':' = ':' then some 0 else none) = some 0
      rw [hcnone, if_pos rfl]
    rw [h1]
    rfl
  have hslashIdx : lastIdx (hp ++ ':' :: dp) '/' = lastIdx hp '/' := by
    rw [lastIdx_append]
    have h2 : lastIdx (':' :: dp) '/' = none := by
      show (match lastIdx dp '/' with
            | some i => some (i + 1)
            | none => if ':' = '/' then some 0 else none) = none
      rw [hsnone, if_neg (by decide)]
    rw [h2]
  have hh : (hp ++ ':' :: dp).headD ' ' ≠ '/' := by
    cases hp with
    | nil =>
        show (':' :: dp).headD ' ' ≠ '/'
        rw [List.headD_cons]
        decide
    | cons x xs =>
        show (x :: (xs ++ ':' :: dp)).headD ' ' ≠ '/'
        rw [List.headD_cons]
        rw [List.headD_cons] at hhead
        exact hhead
  refine ⟨hcolonIdx, ?_⟩
  unfold splitHostPart
  rw [if_neg hh, hslashIdx]
  cases hj : lastIdx hp '/' with
  | none =>
      show (Except.ok (([] : List Char), ([] : List Char),
              (hp ++ ':' :: dp).take hp.length) : Except DialError _)
        = Except.ok ([], [], hp)
      rw [List.take_left]
  | some j =>
      have hjlt : j < hp.length := lastIdx_lt_length hp '/' j hj
      show (if hp.length < j + 1 then Except.error DialError.panicked
            else Except.ok ((hp ++ ':' :: dp).take j, ([] : List Char),
              ((hp ++ ':' :: dp).drop (j + 1)).take (hp.length - (j + 1))))
        = Except.ok (hp.take j, ([] : List Char), hp.drop (j + 1))
      rw [if_neg (by omega)]
      rw [List.take_append_of_le_length (by omega)]
      rw [List.drop_append_of_le_length (by omega)]
      rw [List.take_left' (by rw [List.length_drop])]

/-- C5 witness: host part "a", display part "0", no slashes anywhere:
the whole host part becomes the host. -/
theorem splitHostPart_last_slash_witness :
    (':' ∉ ['0']) ∧ ('/' ∉ ['0']) ∧ (['a'].headD ' ' ≠ '/') ∧
    (lastIdx (['a'] ++ ':' :: ['0']) ':' = some (['a'].length) ∧
      splitHostPart (['a'] ++ ':' :: ['0']) (['a'].length)
        = match lastIdx ['a'] '/' with
          | some j => Except.ok (['a'].take j, ([] : List Char), ['a'].drop (j + 1))
          | none => Except.ok (([] : List Char), ([] : List Char), ['a'])) :=
  ⟨by decide, by decide, by decide,
    splitHostPart_last_slash ['a'] ['0'] (by decide) (by decide) (by decide)⟩

/-- C5 counterexample: the parser searches the whole string for the last
`/`, so a `/` after the last colon does influence the result: "a:0/b"
panics on the inverted slice (host part "a" has no `/`; the claim would
have it parse as host "a" and then fail as a bad display string, as the
slash-free "a:0b" does). -/
theorem parseDisplay_slash_after_colon :
    parseDisplay ("a:0/b").data [] = Except.error DialError.panicked ∧
    parseDisplay ("a:0b").data []
      = Except.error (DialError.badDisplay ("a:0b").data) := by
  refine ⟨?_, ?_⟩ <;> decide

/-- C8 (amended): transport selection on a parsed display spec, by first
match: socket path set → local domain socket to
`socketPath ++ ":" ++ <display-number substring as written>`; else host
non-empty → `protocol` (default "tcp") to
`host ++ ":" ++ decimal(6000 + displayNumber)`; else local domain socket
to `"/tmp/.X11-unix/X" ++ <display-number substring as written>`. -/
theorem dialTarget_selection (raw env : List Char) (spec : DisplaySpec)
    (h : parseDisplay raw env = Except.ok spec) :
    (spec.socket.length ≠ 0 →
      dialTarget spec = (("unix").data, spec.socket ++ ':' :: spec.display)) ∧
    (spec.socket.length = 0 → spec.host.length ≠ 0 →
      dialTarget spec
        = ((if spec.protocol.length = 0 then ("tcp").data else spec.protocol),
            spec.host ++ ':' :: itoa (6000 + spec.dispnum))) ∧
    (spec.socket.length = 0 → spec.host.length = 0 →
      dialTarget spec
        = (("unix").data, ("/tmp/.X11-unix/X").data ++ spec.display)) := by
  unfold dialTarget
  refine ⟨?_, ?_, ?_⟩
  · intro h1
    rw [if_pos h1]
  · intro h1 h2
    rw [if_neg (by simp [h1]), if_pos h2]
  · intro h1 h2
    rw [if_neg (by simp [h1]), if_neg (by simp [h2])]

/-- C8 witness: the parsed "/tmp/s:0" connects a local domain socket to
"/tmp/s:0". -/
theorem dialTarget_selection_witness :
    dialTarget ⟨[], ("/tmp/s").data, [], ("0").data, 0, 0⟩
      = (("unix").data, ("/tmp/s").data ++ ':' :: ("0").data) :=
  (dialTarget_selection ("/tmp/s:0").data []
      ⟨[], ("/tmp/s").data, [], ("0").data, 0, 0⟩ (by decide)).1 (by decide)

/-- C8 counterexample: the socket-path address appends `c.display`, the
display-number substring as written, not the decimal rendering of the
parsed number: "/tmp/s:007" connects to "/tmp/s:007", while the claim's
`socketPath + ":" + displayNumber` reads "/tmp/s:7". -/
theorem dialTarget_raw_display_string :
    parseDisplay ("/tmp/s:007").data []
      = Except.ok ⟨[], ("/tmp/s").data, [], ("007").data, 7, 0⟩ ∧
    (dialTarget ⟨[], ("/tmp/s").data, [], ("007").data, 7, 0⟩).2
      = ("/tmp/s:007").data ∧
    ("/tmp/s:007").data ≠ ("/tmp/s").data ++ ':' :: itoa 7 := by
  refine ⟨?_, ?_, ?_⟩ <;> decide

end Xgb
